import Mathlib

/-!
Shallow embedding of the mdns-publisher repository's core component,
`AvahiPublisher` (src/mpublisher/mpublisher.py), together with the
hostname validation grammar of the CLI front end
(src/mpublisher/cname_service.py, `local_hostname_arg`).

The Avahi naming service is reached over D-Bus; its remote calls can
raise `dbus.exceptions.DBusException`, carrying a D-Bus error name.
The embedding models each remote call through an explicit outcome
parameter (the value returned, or the D-Bus error name raised), and
models the service side (entry groups holding records, committed or
not) as an explicit state, so that claims about records left at the
service are statable.  Python exceptions that escape a method are
modelled with `Except`; the publisher/server states are returned
alongside so that "state unchanged on error" is expressible.
-/

set_option autoImplicit false

namespace MPublisher

/-- D-Bus error name that signals the Avahi service process is gone
(`"org.freedesktop.DBus.Error.ServiceUnknown"` in mpublisher.py,
lines 62 and 140). -/
def serviceUnknown : String := "org.freedesktop.DBus.Error.ServiceUnknown"

/-- From /usr/include/avahi-common/defs.h via mpublisher.py line 33. -/
def AVAHI_DNS_CLASS_IN : Nat := 0x01

/-- From /usr/include/avahi-common/defs.h via mpublisher.py line 34. -/
def AVAHI_DNS_TYPE_CNAME : Nat := 0x05

/-- One record added to an Avahi entry group by `group.AddRecord(...)`
(mpublisher.py lines 116-118): name, DNS class, DNS type, TTL and
wire-format rdata (a byte sequence, modelled as `List Nat`). -/
structure RecordEntry where
  name : String
  rclass : Nat
  rtype : Nat
  ttl : Nat
  rdata : List Nat
deriving DecidableEq, Repr

/-- Server-side state of one Avahi entry group: the records added to it
and whether it has been committed.  `Reset` empties the group and makes
it uncommitted again. -/
structure EntryGroup where
  records : List RecordEntry
  committed : Bool
deriving DecidableEq, Repr

/-- Server-side state of the Avahi daemon, as far as the publisher's
connection is concerned: the entry groups created over this connection,
keyed by an opaque handle, and the next fresh handle. -/
structure AvahiServer where
  groups : List (Nat × EntryGroup)
  nextHandle : Nat
deriving DecidableEq, Repr

/-- `self.server.EntryGroupNew()` followed by wrapping the returned
object path: creates a fresh, empty, uncommitted entry group and
returns its handle. -/
def AvahiServer.entryGroupNew (s : AvahiServer) : Nat × AvahiServer :=
  (s.nextHandle, ⟨s.groups ++ [(s.nextHandle, ⟨[], false⟩)], s.nextHandle + 1⟩)

/-- Apply `f` to the entry group with handle `h`, the common shape of a
D-Bus call made on one group's proxy object. -/
def AvahiServer.update (s : AvahiServer) (h : Nat) (f : EntryGroup → EntryGroup) : AvahiServer :=
  ⟨s.groups.map (fun kg => if kg.1 = h then (kg.1, f kg.2) else kg), s.nextHandle⟩

/-- `group.AddRecord(...)`: append a record to the group with handle `h`. -/
def AvahiServer.addRecord (s : AvahiServer) (h : Nat) (r : RecordEntry) : AvahiServer :=
  s.update h (fun g => ⟨g.records ++ [r], g.committed⟩)

/-- `group.Commit()`: mark the group with handle `h` as committed. -/
def AvahiServer.commit (s : AvahiServer) (h : Nat) : AvahiServer :=
  s.update h (fun g => ⟨g.records, true⟩)

/-- `group.Reset()` (successful case): empty the group with handle `h`
and make it uncommitted, withdrawing its records from mDNS. -/
def AvahiServer.reset (s : AvahiServer) (h : Nat) : AvahiServer :=
  s.update h (fun _ => ⟨[], false⟩)

/-- The entry group currently stored at handle `h`, if any. -/
def AvahiServer.lookup (s : AvahiServer) (h : Nat) : Option EntryGroup :=
  (s.groups.find? (fun kg => kg.1 = h)).map (fun kg => kg.2)

/-- True when some entry group is still committed with records in it,
i.e. some record is still live at the naming service. -/
def AvahiServer.hasCommittedRecords (s : AvahiServer) : Bool :=
  s.groups.any (fun kg => kg.2.committed && !kg.2.records.isEmpty)

/-- The publisher's own state (`AvahiPublisher.__init__`): the cached
local FQDN (`self.hostname`), the fixed record TTL, and `self.published`,
a dict from published cname to the entry-group handle, modelled as an
association list in insertion order with unique keys. -/
structure AvahiPublisher where
  hostname : String
  record_ttl : Nat
  published : List (String × Nat)
deriving DecidableEq, Repr

/-- Python dict assignment `d[k] = v`: overwrite in place if the key is
present, else append. -/
def dictInsert (d : List (String × Nat)) (k : String) (v : Nat) : List (String × Nat) :=
  if d.any (fun p => p.1 = k) then d.map (fun p => if p.1 = k then (k, v) else p)
  else d ++ [(k, v)]

/-- Python dict lookup `d[k]`, as an `Option` (a miss raises `KeyError`
at the call site). -/
def dictGet (d : List (String × Nat)) (k : String) : Option Nat :=
  (d.find? (fun p => p.1 = k)).map (fun p => p.2)

/-- Python `del d[k]`. -/
def dictRemove (d : List (String × Nat)) (k : String) : List (String × Nat) :=
  d.filter (fun p => p.1 ≠ k)

/-- Python `k in d`. -/
def dictHasKey (d : List (String × Nat)) (k : String) : Bool :=
  d.any (fun p => p.1 = k)

/-- Number of entries of the association list carrying the key `k`
(1 for every key of a well-formed dict, used to state uniqueness). -/
def countKey (d : List (String × Nat)) (k : String) : Nat :=
  (d.filter (fun p => p.1 = k)).length

/-- `AvahiPublisher.count` (mpublisher.py lines 78-81):
`len(self.published)`. -/
def AvahiPublisher.count (p : AvahiPublisher) : Nat :=
  p.published.length

/-- Python `"...".split(".")` over a character list: split at every
dot, keeping empty parts (so `"a..b"` gives `["a", "", "b"]` and `""`
gives `[""]`), structurally recursive so that it evaluates by
reduction. -/
def splitDotChars : List Char → List (List Char)
  | [] => [[]]
  | c :: rest =>
    match splitDotChars rest with
    | [] => [[]]
    | part :: parts =>
      if c = '.' then [] :: part :: parts else (c :: part) :: parts

/-- Python `s.split(".")`. -/
def splitDot (s : String) : List String :=
  (splitDotChars s.toList).map (fun l => ⟨l⟩)

/-- `AvahiPublisher._fqdn_to_rdata` (mpublisher.py lines 66-75): for
each non-empty dot-separated part of the FQDN, emit one length byte
followed by the part's ASCII bytes; terminate the whole with a zero
byte.  Characters are modelled by their code points; on the valid
hostnames considered here all of them are ASCII, so `encode("ascii")`
never raises. -/
def fqdn_to_rdata (fqdn : String) : List Nat :=
  (((splitDot fqdn).filter (fun part => part ≠ "")).flatMap
    (fun part => part.length :: part.toList.map Char.toNat)) ++ [0]

/-- Outcome of the `self.server.ResolveHostName(...)` D-Bus round trip
inside `AvahiPublisher.resolve`: either it returns a response whose
third field is the owner name, or it raises a `DBusException` with the
given error name, or it raises a `NameError`. -/
inductive ResolveOutcome where
  | ok (owner : String)
  | dbusError (name : String)
  | nameError
deriving DecidableEq, Repr

/-- `AvahiPublisher.resolve` (mpublisher.py lines 84-94): return the
owner from the response, or `None` when the call raises either
`exceptions.NameError` or any `dbus.exceptions.DBusException`. -/
def resolve (out : ResolveOutcome) : Option String :=
  match out with
  | .ok owner => some owner
  | .dbusError _ => none
  | .nameError => none

/-- The registration tail of `AvahiPublisher.publish_cname`
(mpublisher.py lines 113-123), reached when the collision check passes
or is skipped: create a new entry group, add one CNAME record pointing
the alias at `self.hostname` with the fixed TTL, commit the group,
record the handle in `self.published`, and return `True`. -/
def registerCname (p : AvahiPublisher) (srv : AvahiServer) (cname : String) :
    Bool × AvahiPublisher × AvahiServer :=
  let hs := srv.entryGroupNew
  let srv2 := hs.2.addRecord hs.1
    ⟨cname, AVAHI_DNS_CLASS_IN, AVAHI_DNS_TYPE_CNAME, p.record_ttl, fqdn_to_rdata p.hostname⟩
  let srv3 := srv2.commit hs.1
  (true, { p with published := dictInsert p.published cname hs.1 }, srv3)

/-- `AvahiPublisher.publish_cname` (mpublisher.py lines 97-123).  When
`force` is false it resolves the cname first: a truthy owner different
from `self.hostname` makes it return `False` with no state change; a
truthy owner equal to `self.hostname` only logs a warning and falls
through; a falsy owner (`None` from a failed/negative resolution, or an
empty string) falls through.  The fall-through path, and the whole call
when `force` is true, runs the registration tail. -/
def publish_cname (p : AvahiPublisher) (srv : AvahiServer) (resolveOut : ResolveOutcome)
    (cname : String) (force : Bool) : Bool × AvahiPublisher × AvahiServer :=
  if force = false then
    match resolve resolveOut with
    | some owner =>
      if owner ≠ "" then
        if owner ≠ p.hostname then (false, p, srv)
        else registerCname p srv cname
      else registerCname p srv cname
    | none => registerCname p srv cname
  else registerCname p srv cname

/-- Outcome of one `group.Reset()` D-Bus call: success, or a
`DBusException` with the given error name. -/
inductive ResetOutcome where
  | ok
  | dbusError (name : String)
deriving DecidableEq, Repr

/-- A Python exception escaping a publisher method: `KeyError` from a
dict miss, or a `DBusException` with its error name. -/
inductive PyError where
  | keyError (k : String)
  | dbus (name : String)
deriving DecidableEq, Repr

/-- `AvahiPublisher.unpublish` (mpublisher.py lines 126-130):
`self.published[name].Reset()` then `del self.published[name]`.
A missing key raises `KeyError` before anything happens; a `Reset`
that raises leaves both the dict and the server untouched (the `del`
never runs).  The resulting publisher and server states are returned
alongside the outcome so that the on-error states are explicit. -/
def unpublish (p : AvahiPublisher) (srv : AvahiServer) (resetOut : ResetOutcome)
    (name : String) : Except PyError Unit × AvahiPublisher × AvahiServer :=
  match dictGet p.published name with
  | none => (.error (.keyError name), p, srv)
  | some h =>
    match resetOut with
    | .dbusError e => (.error (.dbus e), p, srv)
    | .ok => (.ok (), { p with published := dictRemove p.published name }, srv.reset h)

/-- The `for group in self.published.itervalues(): group.Reset()` loop
of `AvahiPublisher.__del__` (mpublisher.py lines 58-60), run inside one
`try`.  `out` gives each group's `Reset` outcome.  Returns the handles
on which `Reset` was actually called, the server state after the
successful resets, and the error name of the raised `DBusException`
(if any); the first raising call aborts the rest of the loop. -/
def resetLoop (srv : AvahiServer) (out : Nat → ResetOutcome) :
    List Nat → List Nat × AvahiServer × Option String
  | [] => ([], srv, none)
  | h :: rest =>
    match out h with
    | .ok =>
      let r := resetLoop (srv.reset h) out rest
      (h :: r.1, r.2)
    | .dbusError e => ([h], srv, some e)

/-- `AvahiPublisher.__del__` (mpublisher.py lines 55-63), the teardown:
run the reset loop over the values of `self.published`; a
`DBusException` from it is swallowed when its error name is
`ServiceUnknown` and re-raised otherwise.  `self.published` itself is
never modified.  Returns the handles on which `Reset` was called, and
either the resulting states or the propagated error name. -/
def teardown (p : AvahiPublisher) (srv : AvahiServer) (out : Nat → ResetOutcome) :
    List Nat × Except String (AvahiPublisher × AvahiServer) :=
  match resetLoop srv out (p.published.map (fun e => e.2)) with
  | (tried, srv2, none) => (tried, .ok (p, srv2))
  | (tried, srv2, some e) =>
    if e = serviceUnknown then (tried, .ok (p, srv2)) else (tried, .error e)

/-- Outcome of the `self.server.GetVersionString()` D-Bus call inside
`AvahiPublisher.available`. -/
inductive ProbeOutcome where
  | ok (version : String)
  | dbusError (name : String)
deriving DecidableEq, Repr

/-- `AvahiPublisher.available` (mpublisher.py lines 133-145): `True`
when the dummy call succeeds; when it raises a `DBusException`, return
`False` if the error name is `ServiceUnknown`, otherwise re-raise. -/
def available (out : ProbeOutcome) : Except String Bool :=
  match out with
  | .ok _ => .ok true
  | .dbusError e => if e = serviceUnknown then .ok false else .error e

/-!
Hostname validation (src/mpublisher/cname_service.py, lines 52-58).
`local_hostname_arg` accepts exactly the strings matching the
case-insensitive regex

  ^[a-z0-9][a-z0-9_-]*(\.[a-z0-9][a-z0-9_-]*)*\.local$

and lower-cases them.  The embedding models the normalized (already
lower-case) form, label by label over `splitOn "."`.
-/

/-- A character matching `[a-z0-9]` (code points 97-122 or 48-57). -/
def isLabelStart (c : Char) : Bool :=
  (97 ≤ c.toNat && c.toNat ≤ 122) || (48 ≤ c.toNat && c.toNat ≤ 57)

/-- A character matching `[a-z0-9_-]`. -/
def isLabelChar (c : Char) : Bool :=
  isLabelStart c || c = '_' || c = '-'

/-- One label of the grammar: non-empty, `[a-z0-9]` first, then
`[a-z0-9_-]*`. -/
def validLabel (s : String) : Bool :=
  match s.toList with
  | [] => false
  | c :: cs => isLabelStart c && cs.all isLabelChar

/-- A valid, normalized HostName: at least one label followed by the
reserved `local` suffix, every dot-separated part a valid label. -/
def validHostName (s : String) : Bool :=
  let parts := splitDot s
  (parts.all validLabel) && (parts.getLast? = some "local") && (2 ≤ parts.length)

/-!  Concrete states used to instantiate the theorems below.  They are
built by running the embedded operations themselves, starting from a
freshly constructed engine, so every one of them is reachable. -/

/-- A freshly constructed engine: local FQDN `myhost.local`, TTL 60,
nothing published. -/
def pubEmpty : AvahiPublisher := ⟨"myhost.local", 60, []⟩

/-- The matching fresh server-side state. -/
def srvEmpty : AvahiServer := ⟨[], 0⟩

def demoStep1 : Bool × AvahiPublisher × AvahiServer :=
  publish_cname pubEmpty srvEmpty .nameError "a.local" true

def demoStep2 : Bool × AvahiPublisher × AvahiServer :=
  publish_cname demoStep1.2.1 demoStep1.2.2 .nameError "b.local" true

def demoStep3 : Bool × AvahiPublisher × AvahiServer :=
  publish_cname demoStep2.2.1 demoStep2.2.2 .nameError "c.local" true

/-- An engine that has published three aliases (handles 0, 1, 2). -/
def pubThree : AvahiPublisher := demoStep3.2.1

/-- The server state after those three registrations. -/
def srvThree : AvahiServer := demoStep3.2.2

/-- Reset outcomes: every `Reset` call succeeds. -/
def resetAllOk : Nat → ResetOutcome := fun _ => .ok

/-- Reset outcomes: the second group's `Reset` raises the
service-unknown disconnection error, the others succeed. -/
def resetSndGone : Nat → ResetOutcome :=
  fun h => if h = 1 then .dbusError serviceUnknown else .ok

/-- Reset outcomes: the second group's `Reset` raises an unrelated
D-Bus error. -/
def resetSndFatal : Nat → ResetOutcome :=
  fun h => if h = 1 then .dbusError "org.freedesktop.DBus.Error.NoReply" else .ok

/-- The double-publish scenario: the same alias force-published twice,
then unpublished. -/
def dblPub1 : Bool × AvahiPublisher × AvahiServer :=
  publish_cname pubEmpty srvEmpty .nameError "alias.local" true

def dblPub2 : Bool × AvahiPublisher × AvahiServer :=
  publish_cname dblPub1.2.1 dblPub1.2.2 .nameError "alias.local" true

def dblUnpub : Except PyError Unit × AvahiPublisher × AvahiServer :=
  unpublish dblPub2.2.1 dblPub2.2.2 .ok "alias.local"

/-- The double-publish scenario from an arbitrary starting state:
force-publish `cname` twice (collision checks skipped), then unpublish
it with a succeeding `Reset`.  Returns the three successive results. -/
def doublePublish (p : AvahiPublisher) (srv : AvahiServer)
    (r1 r2 : ResolveOutcome) (cname : String) :
    (Bool × AvahiPublisher × AvahiServer)
      × (Bool × AvahiPublisher × AvahiServer)
      × (Except PyError Unit × AvahiPublisher × AvahiServer) :=
  let s1 := publish_cname p srv r1 cname true
  let s2 := publish_cname s1.2.1 s1.2.2 r2 cname true
  let s3 := unpublish s2.2.1 s2.2.2 .ok cname
  (s1, s2, s3)

/-!  Association-list (Python dict) lemmas. -/

theorem dictHasKey_false_iff (d : List (String × Nat)) (k : String) :
    dictHasKey d k = false ↔ ∀ p ∈ d, p.1 ≠ k := by
  simp [dictHasKey, List.any_eq_true]

theorem dictGet_eq_none (d : List (String × Nat)) (k : String)
    (h : dictHasKey d k = false) : dictGet d k = none := by
  rw [dictHasKey_false_iff] at h
  have hfind : d.find? (fun p => decide (p.1 = k)) = none := by
    refine List.find?_eq_none.mpr ?_
    intro p hp
    simpa using h p hp
  simp [dictGet, hfind]

theorem dictGet_isSome_of_hasKey (d : List (String × Nat)) (k : String)
    (h : dictHasKey d k = true) : ∃ v, dictGet d k = some v := by
  induction d with
  | nil => simp [dictHasKey] at h
  | cons p rest ih =>
    by_cases hp : p.1 = k
    · exact ⟨p.2, by simp [dictGet, List.find?_cons, hp]⟩
    · have h2 : dictHasKey rest k = true := by
        simpa [dictHasKey, List.any_cons, hp] using h
      obtain ⟨v, hv⟩ := ih h2
      exact ⟨v, by simpa [dictGet, List.find?_cons, hp] using hv⟩

theorem find?_overwrite (k : String) (v : Nat) :
    ∀ d : List (String × Nat), d.any (fun p => p.1 = k) = true →
      (d.map (fun p => if p.1 = k then (k, v) else p)).find? (fun p => p.1 = k) = some (k, v)
  | [], h => by simp at h
  | p :: rest, h => by
    by_cases hp : p.1 = k
    · simp [List.find?_cons, hp]
    · have h2 : rest.any (fun p => p.1 = k) = true := by
        simpa [List.any_cons, hp] using h
      simpa [List.find?_cons, hp] using find?_overwrite k v rest h2

theorem dictGet_insert_self (d : List (String × Nat)) (k : String) (v : Nat) :
    dictGet (dictInsert d k v) k = some v := by
  unfold dictInsert
  by_cases hany : d.any (fun p => p.1 = k) = true
  · simp only [hany, if_true, dictGet]
    rw [find?_overwrite k v d hany]
    rfl
  · rw [if_neg (by simpa using hany)]
    have hnone : d.find? (fun p => decide (p.1 = k)) = none := by
      refine List.find?_eq_none.mpr ?_
      intro p hp
      have := (List.any_eq_true.not.mp hany)
      push_neg at this
      simpa using this p hp
    simp [dictGet, List.find?_append, hnone, List.find?_cons]

theorem dictHasKey_insert_self (d : List (String × Nat)) (k : String) (v : Nat) :
    dictHasKey (dictInsert d k v) k = true := by
  have hw := dictGet_insert_self d k v
  unfold dictGet at hw
  rcases hfind : (dictInsert d k v).find? (fun p => decide (p.1 = k)) with _ | p
  · rw [hfind] at hw; simp at hw
  · have hmem := List.mem_of_find?_eq_some hfind
    have hpred := List.find?_some hfind
    exact List.any_eq_true.mpr ⟨p, hmem, hpred⟩

theorem dictHasKey_remove_self (d : List (String × Nat)) (k : String) :
    dictHasKey (dictRemove d k) k = false := by
  simp only [dictHasKey, dictRemove, Bool.eq_false_iff]
  intro hc
  obtain ⟨p, hp, he⟩ := List.any_eq_true.mp hc
  have := List.of_mem_filter hp
  simp at this he
  exact this (by simpa using he)

theorem filter_overwrite_of_nodup (k : String) (v : Nat) :
    ∀ d : List (String × Nat), (d.map Prod.fst).Nodup →
      d.any (fun p => p.1 = k) = true →
      (d.map (fun p => if p.1 = k then (k, v) else p)).filter (fun p => p.1 = k) = [(k, v)]
  | [], _, h => by simp at h
  | p :: rest, hnd, h => by
    have hnd' : (p.1 :: rest.map Prod.fst).Nodup := by rw [List.map_cons] at hnd; exact hnd
    have hnotin : p.1 ∉ rest.map Prod.fst := (List.nodup_cons.mp hnd').1
    have hnd2 : (rest.map Prod.fst).Nodup := (List.nodup_cons.mp hnd').2
    by_cases hp : p.1 = k
    · have hne : ∀ q ∈ rest, q.1 ≠ k := by
        intro q hq hqk
        apply hnotin
        rw [hp, ← hqk]
        exact List.mem_map_of_mem Prod.fst hq
      have hrest : (rest.map (fun p => if p.1 = k then (k, v) else p)) = rest.map id :=
        List.map_congr_left (fun q hq => by simp [hne q hq])
      have hrestfilter : rest.filter (fun p => p.1 = k) = [] := by
        refine List.filter_eq_nil_iff.mpr ?_
        intro q hq
        simpa using hne q hq
      simp [hp, List.filter_cons, hrest, List.map_id, hrestfilter]
    · have h2 : rest.any (fun p => p.1 = k) = true := by
        simpa [List.any_cons, hp] using h
      have := filter_overwrite_of_nodup k v rest hnd2 h2
      simpa [List.filter_cons, hp] using this

theorem countKey_insert_of_nodup (d : List (String × Nat)) (k : String) (v : Nat)
    (hnd : (d.map Prod.fst).Nodup) : countKey (dictInsert d k v) k = 1 := by
  unfold dictInsert countKey
  by_cases hany : d.any (fun p => p.1 = k) = true
  · rw [if_pos hany, filter_overwrite_of_nodup k v d hnd hany]
    rfl
  · rw [if_neg (by simpa using hany)]
    have hfil : d.filter (fun p => p.1 = k) = [] := by
      refine List.filter_eq_nil_iff.mpr ?_
      intro q hq
      have := (List.any_eq_true.not.mp hany)
      push_neg at this
      simpa using this q hq
    simp [List.filter_append, hfil, List.filter_cons]

theorem keysNodup_insert (d : List (String × Nat)) (k : String) (v : Nat)
    (hnd : (d.map Prod.fst).Nodup) : ((dictInsert d k v).map Prod.fst).Nodup := by
  unfold dictInsert
  by_cases hany : d.any (fun p => p.1 = k) = true
  · rw [if_pos hany]
    have hmm : ((d.map (fun p => if p.1 = k then (k, v) else p)).map Prod.fst) = d.map Prod.fst := by
      rw [List.map_map]
      refine List.map_congr_left ?_
      intro q _
      by_cases hq : q.1 = k <;> simp [Function.comp, hq]
    rw [hmm]; exact hnd
  · rw [if_neg (by simpa using hany)]
    have hnotin : k ∉ d.map Prod.fst := by
      intro hc
      obtain ⟨q, hq, hqk⟩ := List.mem_map.mp hc
      have hno := (List.any_eq_true.not.mp hany)
      push_neg at hno
      have hq1 : q.1 ≠ k := by simpa using hno q hq
      exact hq1 hqk
    simp only [List.map_append, List.map_cons, List.map_nil]
    simp [List.nodup_append, hnd, hnotin]

theorem keysNodup_remove (d : List (String × Nat)) (k : String)
    (hnd : (d.map Prod.fst).Nodup) : ((dictRemove d k).map Prod.fst).Nodup := by
  have hsub : List.Sublist (dictRemove d k) d := List.filter_sublist d
  exact List.Nodup.sublist (List.Sublist.map Prod.fst hsub) hnd

/-!  Avahi server-state lemmas. -/

theorem find?_update_self (h : Nat) (f : EntryGroup → EntryGroup) :
    ∀ l : List (Nat × EntryGroup),
      (l.map (fun kg => if kg.1 = h then (kg.1, f kg.2) else kg)).find? (fun kg => kg.1 = h)
        = (l.find? (fun kg => kg.1 = h)).map (fun kg => (kg.1, f kg.2))
  | [] => rfl
  | kg :: rest => by
    by_cases hk : kg.1 = h
    · simp [List.find?_cons, hk]
    · simpa [List.find?_cons, hk] using find?_update_self h f rest

theorem lookup_update_self (s : AvahiServer) (h : Nat) (f : EntryGroup → EntryGroup) :
    (s.update h f).lookup h = (s.lookup h).map f := by
  simp only [AvahiServer.update, AvahiServer.lookup, find?_update_self]
  cases s.groups.find? (fun kg => kg.1 = h) <;> rfl

theorem lookup_update_other (s : AvahiServer) (h k : Nat) (f : EntryGroup → EntryGroup)
    (hne : h ≠ k) : (s.update h f).lookup k = s.lookup k := by
  simp only [AvahiServer.update, AvahiServer.lookup]
  have : ∀ l : List (Nat × EntryGroup),
      (l.map (fun kg => if kg.1 = h then (kg.1, f kg.2) else kg)).find? (fun kg => kg.1 = k)
        = l.find? (fun kg => kg.1 = k) := by
    intro l
    induction l with
    | nil => rfl
    | cons kg rest ih =>
      by_cases hk : kg.1 = h
      · simp [List.find?_cons, hk, hne, ih]
      · by_cases hkk : kg.1 = k
        · have hkh : ¬ (k = h) := fun hc => hne hc.symm
          simp [List.find?_cons, hk, hkk, hkh, ih]
        · simp [List.find?_cons, hk, hkk, ih]
  rw [this]

theorem update_keys (s : AvahiServer) (h : Nat) (f : EntryGroup → EntryGroup) :
    (s.update h f).groups.map Prod.fst = s.groups.map Prod.fst := by
  simp only [AvahiServer.update, List.map_map]
  refine List.map_congr_left ?_
  intro kg _
  by_cases hk : kg.1 = h <;> simp [Function.comp, hk]

theorem lookup_entryGroupNew_fresh (s : AvahiServer)
    (hfresh : ∀ k ∈ s.groups.map Prod.fst, k < s.nextHandle) :
    (s.entryGroupNew).2.lookup s.nextHandle = some ⟨[], false⟩ := by
  have hnone : s.groups.find? (fun kg => decide (kg.1 = s.nextHandle)) = none := by
    refine List.find?_eq_none.mpr ?_
    intro kg hkg
    have := hfresh kg.1 (List.mem_map_of_mem Prod.fst hkg)
    simp [Nat.ne_of_lt this]
  simp [AvahiServer.entryGroupNew, AvahiServer.lookup, List.find?_append, hnone, List.find?_cons]

theorem lookup_entryGroupNew_other (s : AvahiServer) (k : Nat)
    (g : EntryGroup) (hsome : s.lookup k = some g) :
    (s.entryGroupNew).2.lookup k = some g := by
  unfold AvahiServer.lookup at hsome ⊢
  unfold AvahiServer.entryGroupNew
  rcases hfind : s.groups.find? (fun kg => decide (kg.1 = k)) with _ | kg
  · rw [hfind] at hsome; simp at hsome
  · have hor : ((some kg).or
        (List.find? (fun kg => decide (kg.1 = k))
          [(s.nextHandle, (⟨[], false⟩ : EntryGroup))])) = some kg := rfl
    rw [List.find?_append, hfind, hor]
    rw [hfind] at hsome
    exact hsome

theorem hasCommitted_of_lookup (s : AvahiServer) (h : Nat) (g : EntryGroup)
    (hsome : s.lookup h = some g) (hc : g.committed = true) (hr : g.records ≠ []) :
    s.hasCommittedRecords = true := by
  unfold AvahiServer.lookup at hsome
  rcases hfind : s.groups.find? (fun kg => decide (kg.1 = h)) with _ | kg
  · rw [hfind] at hsome; simp at hsome
  · rw [hfind] at hsome
    have hkg : kg.2 = g := by simpa using hsome
    have hmem := List.mem_of_find?_eq_some hfind
    refine List.any_eq_true.mpr ⟨kg, hmem, ?_⟩
    rw [hkg]
    simp [hc, List.isEmpty_iff, hr]

/-!  Reset-loop (teardown) lemmas. -/

theorem resetLoop_all_ok (out : Nat → ResetOutcome) :
    ∀ (l : List Nat) (srv : AvahiServer), (∀ h ∈ l, out h = .ok) →
      resetLoop srv out l = (l, l.foldl AvahiServer.reset srv, none)
  | [], _, _ => rfl
  | h :: rest, srv, hok => by
    have hh : out h = .ok := hok h (List.mem_cons_self h rest)
    have ih := resetLoop_all_ok out rest (srv.reset h)
      (fun x hx => hok x (List.mem_cons_of_mem h hx))
    simp [resetLoop, hh, ih]

theorem resetLoop_first_fail (out : Nat → ResetOutcome) (e : String) (hbad : Nat) :
    ∀ (l1 l2 : List Nat) (srv : AvahiServer),
      (∀ h ∈ l1, out h = .ok) → out hbad = .dbusError e →
      resetLoop srv out (l1 ++ hbad :: l2)
        = (l1 ++ [hbad], l1.foldl AvahiServer.reset srv, some e)
  | [], l2, srv, _, hb => by simp [resetLoop, hb]
  | h :: rest, l2, srv, hok, hb => by
    have hh : out h = .ok := hok h (List.mem_cons_self h rest)
    have ih := resetLoop_first_fail out e hbad rest l2 (srv.reset h)
      (fun x hx => hok x (List.mem_cons_of_mem h hx)) hb
    simp [resetLoop, hh, ih]

theorem teardown_ok_publisher (p : AvahiPublisher) (srv : AvahiServer)
    (out : Nat → ResetOutcome) (p2 : AvahiPublisher) (srv2 : AvahiServer)
    (hok : (teardown p srv out).2 = .ok (p2, srv2)) : p2 = p := by
  unfold teardown at hok
  rcases hres : resetLoop srv out (p.published.map (fun e => e.2)) with ⟨tried, srvx, _ | e⟩
  · rw [hres] at hok
    simp at hok
    exact hok.1.symm
  · rw [hres] at hok
    by_cases he : e = serviceUnknown
    · simp [he] at hok
      exact hok.1.symm
    · simp [he] at hok

/-!  Publication lemmas. -/

theorem publish_cname_cases (p : AvahiPublisher) (srv : AvahiServer) (ro : ResolveOutcome)
    (cname : String) (force : Bool) :
    publish_cname p srv ro cname force = registerCname p srv cname
    ∨ publish_cname p srv ro cname force = (false, p, srv) := by
  unfold publish_cname
  rcases force with _ | _
  · rcases hres : resolve ro with _ | owner
    · simp
    · by_cases h1 : owner = ""
      · simp [h1]
      · by_cases h2 : owner = p.hostname
        · simp [h1, h2]
        · simp [h1, h2]
  · simp

theorem registerCname_components (p : AvahiPublisher) (srv : AvahiServer) (cname : String) :
    (registerCname p srv cname).1 = true
    ∧ (registerCname p srv cname).2.1
        = ⟨p.hostname, p.record_ttl, dictInsert p.published cname srv.nextHandle⟩
    ∧ (registerCname p srv cname).2.2.nextHandle = srv.nextHandle + 1 :=
  ⟨rfl, rfl, rfl⟩

theorem registerCname_server (p : AvahiPublisher) (srv : AvahiServer) (cname : String)
    (hfresh : ∀ k ∈ srv.groups.map Prod.fst, k < srv.nextHandle) :
    (registerCname p srv cname).2.2.lookup srv.nextHandle
      = some ⟨[⟨cname, AVAHI_DNS_CLASS_IN, AVAHI_DNS_TYPE_CNAME, p.record_ttl,
          fqdn_to_rdata p.hostname⟩], true⟩ := by
  show (((srv.entryGroupNew).2.addRecord srv.nextHandle _).commit srv.nextHandle).lookup
      srv.nextHandle = _
  rw [AvahiServer.commit, lookup_update_self, AvahiServer.addRecord, lookup_update_self,
    lookup_entryGroupNew_fresh srv hfresh]
  rfl

theorem registerCname_fresh (p : AvahiPublisher) (srv : AvahiServer) (cname : String)
    (hfresh : ∀ k ∈ srv.groups.map Prod.fst, k < srv.nextHandle) :
    ∀ k ∈ (registerCname p srv cname).2.2.groups.map Prod.fst,
      k < (registerCname p srv cname).2.2.nextHandle := by
  intro k hk
  have hkeys : (registerCname p srv cname).2.2.groups.map Prod.fst
      = srv.groups.map Prod.fst ++ [srv.nextHandle] := by
    show (((srv.entryGroupNew).2.addRecord srv.nextHandle _).commit
        srv.nextHandle).groups.map Prod.fst = _
    rw [AvahiServer.commit, update_keys, AvahiServer.addRecord, update_keys]
    show (srv.groups ++ [(srv.nextHandle, (⟨[], false⟩ : EntryGroup))]).map Prod.fst = _
    rw [List.map_append]
    rfl
  rw [hkeys] at hk
  have hnext : (registerCname p srv cname).2.2.nextHandle = srv.nextHandle + 1 := rfl
  rw [hnext]
  rcases List.mem_append.mp hk with hmem | hmem
  · exact Nat.lt_succ_of_lt (hfresh k hmem)
  · simp at hmem
    omega

theorem registerCname_lookup_old (p : AvahiPublisher) (srv : AvahiServer) (cname : String)
    (k : Nat) (hne : srv.nextHandle ≠ k) (g : EntryGroup) (hsome : srv.lookup k = some g) :
    (registerCname p srv cname).2.2.lookup k = some g := by
  show (((srv.entryGroupNew).2.addRecord srv.nextHandle _).commit srv.nextHandle).lookup k = _
  rw [AvahiServer.commit, lookup_update_other _ _ _ _ hne, AvahiServer.addRecord,
    lookup_update_other _ _ _ _ hne]
  exact lookup_entryGroupNew_other srv k g hsome

/-!  The claims. -/

/-- C6: `available()` returns true when the liveness probe succeeds,
returns false exactly when the probe fails with the service-unknown
disconnection condition, and propagates any other probe failure to the
caller. -/
theorem available_probe_contract (v e : String) :
    available (.ok v) = .ok true
    ∧ (available (.dbusError e) = .ok false ↔ e = serviceUnknown)
    ∧ (available (.dbusError e) = .error e ↔ e ≠ serviceUnknown) := by
  refine ⟨rfl, ?_, ?_⟩ <;> by_cases he : e = serviceUnknown <;> simp [available, he]

/-- C6 witness. -/
theorem available_probe_contract_witness :
    available (.ok "avahi 0.8") = .ok true
    ∧ available (.dbusError serviceUnknown) = .ok false
    ∧ available (.dbusError "org.freedesktop.DBus.Error.NoReply")
        = .error "org.freedesktop.DBus.Error.NoReply" := by
  have t1 := available_probe_contract "avahi 0.8" serviceUnknown
  have t2 := available_probe_contract "avahi 0.8" "org.freedesktop.DBus.Error.NoReply"
  exact ⟨t1.1, t1.2.1.mpr rfl, t2.2.2.mpr (by decide)⟩

/-- C9: when the alias is present in `published` but the `Reset` call
raises, `unpublish` propagates the error and leaves the publisher and
server states (hence `published` and `count()`) unchanged. -/
theorem unpublish_atomic_on_reset_failure (p : AvahiPublisher) (srv : AvahiServer)
    (name e : String) (hk : dictHasKey p.published name = true) :
    unpublish p srv (.dbusError e) name = (.error (.dbus e), p, srv) := by
  obtain ⟨v, hv⟩ := dictGet_isSome_of_hasKey p.published name hk
  simp [unpublish, hv]

/-- C9 witness. -/
theorem unpublish_atomic_on_reset_failure_witness :
    unpublish pubThree srvThree (.dbusError serviceUnknown) "b.local"
      = (.error (.dbus serviceUnknown), pubThree, srvThree) :=
  unpublish_atomic_on_reset_failure pubThree srvThree "b.local" serviceUnknown (by decide)

/-- C5: `unpublish` on a name absent from `published` fails with the
NotFound (`KeyError`) condition and changes neither the publisher nor
the server state; on a present name (with the `Reset` succeeding) it
resets that name's record group at the service and removes the entry. -/
theorem unpublish_notfound_and_present (p : AvahiPublisher) (srv : AvahiServer)
    (rst : ResetOutcome) (name : String) (h : Nat) :
    (dictHasKey p.published name = false →
      unpublish p srv rst name = (.error (.keyError name), p, srv))
    ∧ (dictGet p.published name = some h →
      unpublish p srv .ok name
        = (.ok (), ⟨p.hostname, p.record_ttl, dictRemove p.published name⟩, srv.reset h)
      ∧ dictHasKey (unpublish p srv .ok name).2.1.published name = false) := by
  constructor
  · intro habs
    have hnone := dictGet_eq_none p.published name habs
    simp [unpublish, hnone]
  · intro hget
    constructor
    · simp [unpublish, hget]
    · have hpubl : (unpublish p srv .ok name).2.1.published = dictRemove p.published name := by
        simp [unpublish, hget]
      rw [hpubl]
      exact dictHasKey_remove_self _ _

/-- C5 witness. -/
theorem unpublish_notfound_and_present_witness :
    unpublish pubThree srvThree .ok "zz.local" = (.error (.keyError "zz.local"), pubThree, srvThree)
    ∧ unpublish pubThree srvThree .ok "a.local"
        = (.ok (), ⟨"myhost.local", 60, dictRemove pubThree.published "a.local"⟩,
            srvThree.reset 0) := by
  have t1 := unpublish_notfound_and_present pubThree srvThree .ok "zz.local" 0
  have t2 := unpublish_notfound_and_present pubThree srvThree .ok "a.local" 0
  exact ⟨t1.1 (by decide), (t2.2 (by decide)).1⟩

/-- C2: with `force=false`, a resolution to a (non-empty) owner other
than the engine's own hostname makes `publish_cname` return `False`
with no state change; a resolution to the engine's own hostname, or no
resolution, falls through to registration, which returns `True` and
records the (alias, handle) pair in `published`. -/
theorem publish_collision_check (p : AvahiPublisher) (srv : AvahiServer)
    (cname owner : String) (res : ResolveOutcome) :
    (owner ≠ "" → owner ≠ p.hostname →
      publish_cname p srv (.ok owner) cname false = (false, p, srv))
    ∧ (resolve res = none → publish_cname p srv res cname false = registerCname p srv cname)
    ∧ publish_cname p srv (.ok p.hostname) cname false = registerCname p srv cname
    ∧ (registerCname p srv cname).1 = true
    ∧ dictGet (registerCname p srv cname).2.1.published cname = some srv.nextHandle
    ∧ dictHasKey (registerCname p srv cname).2.1.published cname = true := by
  refine ⟨?_, ?_, ?_, rfl, ?_, ?_⟩
  · intro h1 h2
    simp [publish_cname, resolve, h1, h2]
  · intro hres
    simp [publish_cname, hres]
  · by_cases hh : p.hostname = "" <;> simp [publish_cname, resolve, hh]
  · show dictGet (dictInsert p.published cname srv.nextHandle) cname = some srv.nextHandle
    exact dictGet_insert_self _ _ _
  · show dictHasKey (dictInsert p.published cname srv.nextHandle) cname = true
    exact dictHasKey_insert_self _ _ _

/-- C2 witness. -/
theorem publish_collision_check_witness :
    publish_cname pubEmpty srvEmpty (.ok "other-machine.local") "alias.local" false
      = (false, pubEmpty, srvEmpty)
    ∧ publish_cname pubEmpty srvEmpty (.dbusError "org.freedesktop.DBus.Error.NoReply")
        "alias.local" false = registerCname pubEmpty srvEmpty "alias.local"
    ∧ publish_cname pubEmpty srvEmpty (.ok "myhost.local") "alias.local" false
        = registerCname pubEmpty srvEmpty "alias.local" := by
  have t := publish_collision_check pubEmpty srvEmpty "alias.local" "other-machine.local"
    (.dbusError "org.freedesktop.DBus.Error.NoReply")
  exact ⟨t.1 (by decide) (by decide), t.2.1 rfl, t.2.2.1⟩

/-- C10: `resolve` returns no owner whenever the underlying call raises
(any D-Bus error, connection-level ones included, and `NameError`), so
a checked `publish_cname` whose resolution fails because the connection
is gone classifies the alias as unused and proceeds to register it —
returning `True`, recording the alias, and committing a new record
group at the service — instead of reporting the connection failure. -/
theorem resolve_swallows_errors (p : AvahiPublisher) (srv : AvahiServer) (cname e : String)
    (hfresh : ∀ k ∈ srv.groups.map Prod.fst, k < srv.nextHandle) :
    resolve (.dbusError e) = none
    ∧ resolve .nameError = none
    ∧ publish_cname p srv (.dbusError e) cname false = registerCname p srv cname
    ∧ (publish_cname p srv (.dbusError e) cname false).1 = true
    ∧ dictHasKey (publish_cname p srv (.dbusError e) cname false).2.1.published cname = true
    ∧ (publish_cname p srv (.dbusError e) cname false).2.2.lookup srv.nextHandle
        = some ⟨[⟨cname, AVAHI_DNS_CLASS_IN, AVAHI_DNS_TYPE_CNAME, p.record_ttl,
            fqdn_to_rdata p.hostname⟩], true⟩ := by
  have hpub : publish_cname p srv (.dbusError e) cname false = registerCname p srv cname := by
    simp [publish_cname, resolve]
  refine ⟨rfl, rfl, hpub, ?_, ?_, ?_⟩
  · rw [hpub]
    rfl
  · rw [hpub]
    show dictHasKey (dictInsert p.published cname srv.nextHandle) cname = true
    exact dictHasKey_insert_self _ _ _
  · rw [hpub]
    exact registerCname_server p srv cname hfresh

/-- C10 witness. -/
theorem resolve_swallows_errors_witness :
    publish_cname pubEmpty srvEmpty (.dbusError "org.freedesktop.DBus.Error.Disconnected")
      "alias.local" false = registerCname pubEmpty srvEmpty "alias.local"
    ∧ (publish_cname pubEmpty srvEmpty (.dbusError "org.freedesktop.DBus.Error.Disconnected")
        "alias.local" false).1 = true := by
  have t := resolve_swallows_errors pubEmpty srvEmpty "alias.local"
    "org.freedesktop.DBus.Error.Disconnected" (by simp [srvEmpty])
  exact ⟨t.2.2.1, t.2.2.2.1⟩

/-- C1 counterexample: on a reachable engine with three published
aliases, when the second group's `Reset` fails with the
connection-gone condition, only two of the three resets are issued
(the loop stops at the first failure) and `count()` stays 3 — and even
when no reset fails, `count()` is still 3 afterward, never 0, because
`published` is not cleared. -/
theorem teardown_three_aliases_counterexample :
    pubThree.count = 3
    ∧ (teardown pubThree srvThree resetSndGone).1 = [0, 1]
    ∧ (teardown pubThree srvThree resetSndGone).2.toOption.map (fun r => r.1.count) = some 3
    ∧ (teardown pubThree srvThree resetAllOk).1.length = 3
    ∧ (teardown pubThree srvThree resetAllOk).2.toOption.map (fun r => r.1.count) = some 3 := by
  decide

/-- C1 (amended): for an engine with three published aliases whose
second group's `Reset` fails with the service-unknown condition,
teardown issues the reset calls in iteration order only up to and
including that failing call (the third is not attempted), swallows the
failure, and leaves `published` untouched, so `count()` is 3 afterward
rather than 0. -/
theorem teardown_three_aliases (p : AvahiPublisher) (srv : AvahiServer)
    (out : Nat → ResetOutcome) (n1 n2 n3 : String) (h1 h2 h3 : Nat)
    (hpub : p.published = [(n1, h1), (n2, h2), (n3, h3)])
    (o1 : out h1 = .ok) (o2 : out h2 = .dbusError serviceUnknown) :
    (teardown p srv out).1 = [h1, h2]
    ∧ (teardown p srv out).2 = .ok (p, srv.reset h1)
    ∧ p.count = 3 := by
  have hmap : p.published.map (fun e => e.2) = [h1] ++ h2 :: [h3] := by
    rw [hpub]
    rfl
  have hloop := resetLoop_first_fail out serviceUnknown h2 [h1] [h3] srv
    (by intro x hx; simp at hx; subst hx; exact o1) o2
  have hcount : p.count = 3 := by
    unfold AvahiPublisher.count
    rw [hpub]
    rfl
  unfold teardown
  rw [hmap, hloop]
  refine ⟨by simp, by simp, hcount⟩

/-- C1 witness. -/
theorem teardown_three_aliases_witness :
    (teardown pubThree srvThree resetSndGone).1 = [0, 1]
    ∧ (teardown pubThree srvThree resetSndGone).2 = .ok (pubThree, srvThree.reset 0)
    ∧ pubThree.count = 3 :=
  teardown_three_aliases pubThree srvThree resetSndGone "a.local" "b.local" "c.local"
    0 1 2 (by decide) (by decide) (by decide)

/-- C8: during teardown, the `DBusException` raised by the first
failing `Reset` is swallowed exactly when its error name is the
service-unknown condition (the connection is already gone); an error
of any other name is propagated to the caller. -/
theorem teardown_error_filtering (p : AvahiPublisher) (srv : AvahiServer)
    (out : Nat → ResetOutcome) (l1 l2 : List Nat) (hbad : Nat) (e : String)
    (hsplit : p.published.map (fun q => q.2) = l1 ++ hbad :: l2)
    (hok : ∀ h ∈ l1, out h = .ok) (hb : out hbad = .dbusError e) :
    ((teardown p srv out).2 = .ok (p, l1.foldl AvahiServer.reset srv) ↔ e = serviceUnknown)
    ∧ ((teardown p srv out).2 = .error e ↔ e ≠ serviceUnknown) := by
  have hloop := resetLoop_first_fail out e hbad l1 l2 srv hok hb
  unfold teardown
  rw [hsplit, hloop]
  by_cases he : e = serviceUnknown <;> simp [he]

/-- C8 witness: at the three-alias engine, a service-unknown failure on
the second reset is swallowed, while an unrelated D-Bus error on the
same reset propagates out of teardown. -/
theorem teardown_error_filtering_witness :
    (teardown pubThree srvThree resetSndGone).2
      = .ok (pubThree, List.foldl AvahiServer.reset srvThree [0])
    ∧ (teardown pubThree srvThree resetSndFatal).2
        = .error "org.freedesktop.DBus.Error.NoReply" := by
  have t1 := teardown_error_filtering pubThree srvThree resetSndGone [0] [2] 1
    serviceUnknown (by decide) (by decide) (by decide)
  have t2 := teardown_error_filtering pubThree srvThree resetSndFatal [0] [2] 1
    "org.freedesktop.DBus.Error.NoReply" (by decide) (by decide) (by decide)
  exact ⟨t1.1.mpr rfl, t2.2.mpr (by decide)⟩

/-- C4 counterexample: teardown does not clear `published` — after a
successful teardown on a reachable engine that published `a.local`,
that name is still a key of `published`. -/
theorem count_invariant_counterexample :
    demoStep1.1 = true
    ∧ (teardown demoStep1.2.1 demoStep1.2.2 resetAllOk).2.toOption.map
        (fun r => dictHasKey r.1.published "a.local") = some true
    ∧ (teardown demoStep1.2.1 demoStep1.2.2 resetAllOk).2.toOption.map
        (fun r => r.1.count) = some 1 := by
  decide

/-- C4 (amended): `count()` equals the number of keys of `published`
(whose keys stay pairwise distinct under every operation); after a
successful `publish_cname` the name is a key; after a successful
`unpublish` it is not; but teardown returns the publisher unchanged,
so a published name is still a key after teardown. -/
theorem published_set_ledger (p : AvahiPublisher) (srv : AvahiServer)
    (ro : ResolveOutcome) (rst : ResetOutcome) (out : Nat → ResetOutcome)
    (cname name : String) (force : Bool) (p2 : AvahiPublisher) (srv2 : AvahiServer)
    (hnd : (p.published.map Prod.fst).Nodup) :
    p.count = (p.published.map Prod.fst).dedup.length
    ∧ ((publish_cname p srv ro cname force).1 = true →
        dictHasKey (publish_cname p srv ro cname force).2.1.published cname = true)
    ∧ ((unpublish p srv rst name).1 = .ok () →
        dictHasKey (unpublish p srv rst name).2.1.published name = false)
    ∧ ((teardown p srv out).2 = .ok (p2, srv2) → p2 = p)
    ∧ ((publish_cname p srv ro cname force).2.1.published.map Prod.fst).Nodup
    ∧ ((unpublish p srv rst name).2.1.published.map Prod.fst).Nodup := by
  refine ⟨?_, ?_, ?_, ?_, ?_, ?_⟩
  · unfold AvahiPublisher.count
    rw [List.dedup_eq_self.mpr hnd, List.length_map]
  · rcases publish_cname_cases p srv ro cname force with hc | hc
    · rw [hc]
      intro _
      show dictHasKey (dictInsert p.published cname srv.nextHandle) cname = true
      exact dictHasKey_insert_self _ _ _
    · rw [hc]
      intro hfalse
      simp at hfalse
  · unfold unpublish
    rcases hget : dictGet p.published name with _ | hdl
    · intro hcontra
      simp at hcontra
    · rcases rst with _ | e
      · intro _
        exact dictHasKey_remove_self _ _
      · intro hcontra
        simp at hcontra
  · exact teardown_ok_publisher p srv out p2 srv2
  · rcases publish_cname_cases p srv ro cname force with hc | hc
    · rw [hc]
      show ((dictInsert p.published cname srv.nextHandle).map Prod.fst).Nodup
      exact keysNodup_insert _ _ _ hnd
    · rw [hc]
      exact hnd
  · unfold unpublish
    rcases hget : dictGet p.published name with _ | hdl
    · exact hnd
    · rcases rst with _ | e
      · exact keysNodup_remove _ _ hnd
      · exact hnd

/-- C4 witness. -/
theorem published_set_ledger_witness :
    pubThree.count = (pubThree.published.map Prod.fst).dedup.length
    ∧ dictHasKey (publish_cname pubThree srvThree .nameError "d.local" true).2.1.published
        "d.local" = true
    ∧ dictHasKey (unpublish pubThree srvThree .ok "a.local").2.1.published "a.local" = false := by
  have t := published_set_ledger pubThree srvThree .nameError .ok resetAllOk
    "d.local" "a.local" true pubThree srvThree (by decide)
  exact ⟨t.1, t.2.1 (by decide), t.2.2.1 rfl⟩

theorem unpublish_found_components (p : AvahiPublisher) (srv : AvahiServer) (name : String)
    (hdl : Nat) (hget : dictGet p.published name = some hdl) :
    (unpublish p srv .ok name).1 = .ok ()
    ∧ (unpublish p srv .ok name).2.1.published = dictRemove p.published name
    ∧ (unpublish p srv .ok name).2.2 = srv.reset hdl := by
  refine ⟨?_, ?_, ?_⟩ <;> simp [unpublish, hget]

/-- C3 counterexample: at a reachable engine, force-publishing
`alias.local` twice succeeds both times and leaves a single
`published` entry, but after unpublishing the alias the first record
group (handle 0) is still committed at the naming service with its
CNAME record — a dangling record the engine can no longer reset. -/
theorem double_publish_counterexample :
    dblPub1.1 = true ∧ dblPub2.1 = true
    ∧ dblPub2.2.1.published = [("alias.local", 1)]
    ∧ dblUnpub.1.toOption = some ()
    ∧ dblUnpub.2.2.lookup 0
        = some ⟨[⟨"alias.local", 1, 5, 60, fqdn_to_rdata "myhost.local"⟩], true⟩
    ∧ dblUnpub.2.2.hasCommittedRecords = true := by
  decide

/-- C3 (amended): force-publishing the same alias twice succeeds both
times and leaves exactly one `published` entry for the alias, holding
the second group's handle; but the second call overwrites the first
group's handle without resetting that group, so after unpublishing the
alias (which resets only the second group) the first group is still
committed at the naming service with its CNAME record. -/
theorem double_publish_dangling_group (p : AvahiPublisher) (srv : AvahiServer)
    (cname : String) (r1 r2 : ResolveOutcome)
    (hnd : (p.published.map Prod.fst).Nodup)
    (hfresh : ∀ k ∈ srv.groups.map Prod.fst, k < srv.nextHandle) :
    (doublePublish p srv r1 r2 cname).1.1 = true
    ∧ (doublePublish p srv r1 r2 cname).2.1.1 = true
    ∧ countKey (doublePublish p srv r1 r2 cname).2.1.2.1.published cname = 1
    ∧ dictGet (doublePublish p srv r1 r2 cname).2.1.2.1.published cname
        = some (srv.nextHandle + 1)
    ∧ (doublePublish p srv r1 r2 cname).2.2.1 = .ok ()
    ∧ dictHasKey (doublePublish p srv r1 r2 cname).2.2.2.1.published cname = false
    ∧ (doublePublish p srv r1 r2 cname).2.2.2.2.lookup srv.nextHandle
        = some ⟨[⟨cname, AVAHI_DNS_CLASS_IN, AVAHI_DNS_TYPE_CNAME, p.record_ttl,
            fqdn_to_rdata p.hostname⟩], true⟩
    ∧ (doublePublish p srv r1 r2 cname).2.2.2.2.hasCommittedRecords = true := by
  have hnd1 : ((dictInsert p.published cname srv.nextHandle).map Prod.fst).Nodup :=
    keysNodup_insert _ _ _ hnd
  have hget : dictGet (doublePublish p srv r1 r2 cname).2.1.2.1.published cname
      = some (srv.nextHandle + 1) :=
    dictGet_insert_self (dictInsert p.published cname srv.nextHandle) cname
      (srv.nextHandle + 1)
  have hu := unpublish_found_components (doublePublish p srv r1 r2 cname).2.1.2.1
    (doublePublish p srv r1 r2 cname).2.1.2.2 cname (srv.nextHandle + 1) hget
  have hlook1 := registerCname_server p srv cname hfresh
  have hlook2 := registerCname_lookup_old (registerCname p srv cname).2.1
    (registerCname p srv cname).2.2 cname srv.nextHandle
    (Nat.succ_ne_self srv.nextHandle)
    ⟨[⟨cname, AVAHI_DNS_CLASS_IN, AVAHI_DNS_TYPE_CNAME, p.record_ttl,
        fqdn_to_rdata p.hostname⟩], true⟩ hlook1
  have hsrv3 : (doublePublish p srv r1 r2 cname).2.2.2.2
      = (doublePublish p srv r1 r2 cname).2.1.2.2.reset (srv.nextHandle + 1) := hu.2.2
  have hlook3 : (doublePublish p srv r1 r2 cname).2.2.2.2.lookup srv.nextHandle
      = some ⟨[⟨cname, AVAHI_DNS_CLASS_IN, AVAHI_DNS_TYPE_CNAME, p.record_ttl,
          fqdn_to_rdata p.hostname⟩], true⟩ := by
    rw [hsrv3, AvahiServer.reset,
      lookup_update_other _ _ _ _ (Nat.succ_ne_self srv.nextHandle)]
    exact hlook2
  refine ⟨rfl, rfl, ?_, hget, hu.1, ?_, hlook3, ?_⟩
  · exact countKey_insert_of_nodup (dictInsert p.published cname srv.nextHandle) cname
      (srv.nextHandle + 1) hnd1
  · have hrm : (doublePublish p srv r1 r2 cname).2.2.2.1.published
        = dictRemove (doublePublish p srv r1 r2 cname).2.1.2.1.published cname := hu.2.1
    rw [hrm]
    exact dictHasKey_remove_self _ _
  · exact hasCommitted_of_lookup _ srv.nextHandle _ hlook3 rfl (by simp)

/-- C3 witness. -/
theorem double_publish_dangling_group_witness :
    (doublePublish pubEmpty srvEmpty .nameError .nameError "alias.local").1.1 = true
    ∧ countKey (doublePublish pubEmpty srvEmpty .nameError .nameError
        "alias.local").2.1.2.1.published "alias.local" = 1
    ∧ (doublePublish pubEmpty srvEmpty .nameError .nameError
        "alias.local").2.2.2.2.hasCommittedRecords = true := by
  have t := double_publish_dangling_group pubEmpty srvEmpty "alias.local" .nameError .nameError
    (by decide) (by simp [srvEmpty])
  exact ⟨t.1, t.2.2.1, t.2.2.2.2.2.2.2⟩

theorem labelStart_bounds (c : Char) (h : isLabelStart c = true) :
    48 ≤ c.toNat ∧ c.toNat ≤ 122 := by
  unfold isLabelStart at h
  simp only [Bool.or_eq_true, Bool.and_eq_true, decide_eq_true_eq] at h
  omega

theorem labelChar_bounds (c : Char) (h : isLabelChar c = true) :
    45 ≤ c.toNat ∧ c.toNat ≤ 122 := by
  unfold isLabelChar at h
  simp only [Bool.or_eq_true, decide_eq_true_eq] at h
  rcases h with (hs | hu) | hm
  · have := labelStart_bounds c hs
    omega
  · subst hu
    decide
  · subst hm
    decide

theorem validLabel_spec (s : String) (h : validLabel s = true) :
    s ≠ "" ∧ 0 < s.length ∧ ∀ c ∈ s.toList, 45 ≤ c.toNat ∧ c.toNat ≤ 122 := by
  unfold validLabel at h
  rcases hs : s.toList with _ | ⟨c, cs⟩
  · rw [hs] at h
    have h' : false = true := h
    cases h'
  · rw [hs] at h
    have h' : (isLabelStart c && cs.all isLabelChar) = true := h
    rw [Bool.and_eq_true] at h'
    obtain ⟨h1, h2⟩ := h'
    have hall := List.all_eq_true.mp h2
    refine ⟨?_, ?_, ?_⟩
    · intro hcon
      rw [hcon] at hs
      exact List.noConfusion hs
    · have hl : s.length = s.toList.length := rfl
      rw [hl, hs]
      simp
    · intro x hx
      rcases List.mem_cons.mp hx with hx | hx
      · subst hx
        have := labelStart_bounds x h1
        omega
      · exact labelChar_bounds x (hall x hx)

/-- C7: for every valid HostName (each dot-separated label non-empty,
over `[a-z0-9_-]`, at most 63 bytes, ending in the `local` suffix),
the record encoder — a pure, deterministic function of the name —
produces each label in order prefixed by its one-byte length, the
whole sequence terminated by a single zero byte, with every byte a
single-byte ASCII code point (less than 128). -/
theorem fqdn_encoder_format (h : String) (hv : validHostName h = true)
    (hlen : ∀ part ∈ splitDot h, part.length ≤ 63) :
    fqdn_to_rdata h
      = ((splitDot h).flatMap (fun part => part.length :: part.toList.map Char.toNat)) ++ [0]
    ∧ (∀ b ∈ fqdn_to_rdata h, b < 128)
    ∧ (fqdn_to_rdata h).getLast? = some 0
    ∧ (fqdn_to_rdata h).count 0 = 1 := by
  have hv' : ((splitDot h).all validLabel) = true := by
    unfold validHostName at hv
    simp only [Bool.and_eq_true] at hv
    exact hv.1.1
  have hlab : ∀ p ∈ splitDot h, validLabel p = true := List.all_eq_true.mp hv'
  have hne : ∀ p ∈ splitDot h, p ≠ "" := fun p hp => (validLabel_spec p (hlab p hp)).1
  have hfil : (splitDot h).filter (fun part => part ≠ "") = splitDot h :=
    List.filter_eq_self.mpr (by intro p hp; simpa using hne p hp)
  have heq : fqdn_to_rdata h
      = ((splitDot h).flatMap (fun part => part.length :: part.toList.map Char.toNat)) ++ [0] := by
    unfold fqdn_to_rdata
    rw [hfil]
  refine ⟨heq, ?_, ?_, ?_⟩
  · intro b hb
    rw [heq] at hb
    rcases List.mem_append.mp hb with hb | hb
    · obtain ⟨p, hp, hmem⟩ := List.mem_flatMap.mp hb
      rcases List.mem_cons.mp hmem with hb0 | hb1
      · have := hlen p hp
        omega
      · obtain ⟨c, hc, hcb⟩ := List.mem_map.mp hb1
        have := (validLabel_spec p (hlab p hp)).2.2 c hc
        omega
    · simp at hb
      omega
  · unfold fqdn_to_rdata
    exact List.getLast?_concat _
  · rw [heq, List.count_append]
    have h0 : ((splitDot h).flatMap
        (fun part => part.length :: part.toList.map Char.toNat)).count 0 = 0 := by
      rw [List.count_eq_zero]
      intro hmem
      obtain ⟨p, hp, hmem⟩ := List.mem_flatMap.mp hmem
      rcases List.mem_cons.mp hmem with h1 | h1
      · have := (validLabel_spec p (hlab p hp)).2.1
        omega
      · obtain ⟨c, hc, h2⟩ := List.mem_map.mp h1
        have := (validLabel_spec p (hlab p hp)).2.2 c hc
        omega
    rw [h0]
    simp

/-- C7 witness. -/
theorem fqdn_encoder_format_witness :
    fqdn_to_rdata "myhost.local"
      = ((splitDot "myhost.local").flatMap
          (fun part => part.length :: part.toList.map Char.toNat)) ++ [0]
    ∧ (fqdn_to_rdata "myhost.local").count 0 = 1 := by
  have t := fqdn_encoder_format "myhost.local" (by decide) (by decide)
  exact ⟨t.1, t.2.2.2⟩

end MPublisher
